import Mathlib

/-!
Shallow embedding of the snapshot-analysis core of `visualize_ac_change.py`
(repository jackwerner/smartStream).

Modelling conventions:
* A pandas row of a loaded snapshot CSV becomes `SnapshotRow`.  The `PA` and
  `PTS` columns are numbers; we embed them as `ℚ` (exact arithmetic in place
  of the script's floating point).  A snapshot date (`pd.to_datetime` of the
  filename's date token) is embedded as an integer day number `date : ℤ`, so
  that `(last.date - first.date).days` becomes plain integer subtraction.
* A pandas DataFrame becomes a `List` of rows, in row order.
* `df.groupby(keys)` (with pandas' default `sort=True`) iterates the distinct
  keys in ascending key order, each group holding the rows with that key in
  their order of appearance.  We embed this with `List.dedup`, a code-point
  lexicographic key comparator and the comparison sort `sortLe`.
  `sort_values` is likewise embedded by `sortLe` with the corresponding
  comparator (the source's unstable quicksort leaves tie order unspecified;
  the claims do not depend on tie order).
* A missing value (`None` / NaN) becomes `Option`: `load_ac_data` returns
  `none` for the script's `None`, and the median of an empty series — NaN in
  pandas, whose comparisons are all `False` — becomes `none`, with every
  comparison against it evaluating to `false`.
-/

/-- Insert into a list sorted by the Boolean comparator `le` (helper of
`sortLe`). -/
def insertLe (le : α → α → Bool) (a : α) : List α → List α
  | [] => [a]
  | b :: bs => if le a b then a :: b :: bs else b :: insertLe le a bs

/-- Comparison sort by a Boolean comparator: the embedding of pandas
`sort_values` (a structurally recursive insertion sort, so that concrete
runs reduce inside the kernel; the source's quicksort is unstable, so tie
order is unspecified there and the claims do not depend on it). -/
def sortLe (le : α → α → Bool) : List α → List α
  | [] => []
  | a :: as => insertLe le a (sortLe le as)

/-- One row of a loaded snapshot CSV, after `load_ac_data` has tagged it with
its snapshot `date` (from the filename) and `player_type`
(`"batter"`/`"pitcher"`, from the filename).  `POS` holds the row's
`POS`/`aPOS` column (`""` when absent), collapsing
`last_row.get('POS', last_row.get('aPOS', ''))` to a single field. -/
structure SnapshotRow where
  Name : String
  PlayerName : String
  Team : String
  POS : String
  PA : ℚ
  PTS : ℚ
  date : ℤ
  player_type : String
deriving DecidableEq, Repr

/-- The regex extraction `df['Name'].str.extract(r'>([^<]+)<')`: the first
substring of at least one non-`<` character that is enclosed between a `>`
and a `<`; `none` when there is no such match (pandas yields NaN). -/
def extractTagged : List Char → Option (List Char)
  | [] => none
  | c :: rest =>
    if c = '>' then
      let run := rest.takeWhile (fun d => decide (d ≠ '<'))
      if run.isEmpty then extractTagged rest
      else if (rest.dropWhile (fun d => decide (d ≠ '<'))).isEmpty then extractTagged rest
      else some run
    else extractTagged rest

/-- The step `clean_player_names`: the extracted tagged name, falling back to the
`PlayerName` column when extraction yields no match (`fillna`). -/
def cleanName (r : SnapshotRow) : String :=
  match extractTagged r.Name.toList with
  | some cs => String.mk cs
  | none => r.PlayerName

/-- Code-point lexicographic order on character lists (the order Python uses
on strings, hence the order of pandas' sorted group keys). -/
def charListLe : List Char → List Char → Bool
  | [], _ => true
  | _ :: _, [] => false
  | a :: as, b :: bs =>
    if a.toNat < b.toNat then true
    else if b.toNat < a.toNat then false
    else charListLe as bs

/-- The `groupby(['clean_name', 'player_type'])` key of a row. -/
def rowKey (r : SnapshotRow) : String × String := (cleanName r, r.player_type)

/-- Lexicographic order on group keys. -/
def keyLe (a b : String × String) : Bool :=
  if a.1 = b.1 then charListLe a.2.toList b.2.toList
  else charListLe a.1.toList b.1.toList && !(a.1 = b.1 : Bool)

/-- The `sort_values('date')` comparator. -/
def dateLe (a b : SnapshotRow) : Bool := decide (a.date ≤ b.date)

/-- One row of the DataFrame built by `calculate_changes` (the `change_record`
dict of the source). -/
structure ChangeRecord where
  player_name : String
  player_type : String
  first_date : ℤ
  last_date : ℤ
  days_tracked : ℤ
  first_PA : ℚ
  last_PA : ℚ
  first_PTS : ℚ
  last_PTS : ℚ
  pa_change : ℚ
  pts_change : ℚ
  pa_pct_change : ℚ
  pts_pct_change : ℚ
  pts_per_pa_change : ℚ
  pa_change_per_day : ℚ
  pts_change_per_day : ℚ
  team : String
  position : String
deriving DecidableEq, Repr

/-- The `change_record` built from a group's first and last rows
(source lines 77-109), guards included:
percentage changes are `0` unless the first value is `> 0`,
`pts_per_pa_change` is `0` when `pa_change == 0`, and the per-day rates are
`0` unless `days_diff > 0`. -/
def mkChangeRecord (key : String × String) (first last : SnapshotRow) : ChangeRecord :=
  let pa_change := last.PA - first.PA
  let pts_change := last.PTS - first.PTS
  let days_diff : ℤ := last.date - first.date
  { player_name := key.1
    player_type := key.2
    first_date := first.date
    last_date := last.date
    days_tracked := days_diff
    first_PA := first.PA
    last_PA := last.PA
    first_PTS := first.PTS
    last_PTS := last.PTS
    pa_change := pa_change
    pts_change := pts_change
    pa_pct_change := if 0 < first.PA then pa_change / first.PA * 100 else 0
    pts_pct_change := if 0 < first.PTS then pts_change / first.PTS * 100 else 0
    pts_per_pa_change := if pa_change ≠ 0 then pts_change / pa_change else 0
    pa_change_per_day := if 0 < days_diff then pa_change / (days_diff : ℚ) else 0
    pts_change_per_day := if 0 < days_diff then pts_change / (days_diff : ℚ) else 0
    team := last.Team
    position := last.POS }

/-- The body of the per-group loop of `calculate_changes` (source lines
63-111): groups with fewer than two rows are skipped, the group is sorted by
date, its first and last rows are the anchors, and a group whose first and
last rows carry the same date is skipped. -/
def processGroup (key : String × String) (g : List SnapshotRow) : Option ChangeRecord :=
  if g.length < 2 then none
  else
    match (sortLe dateLe g).head?, (sortLe dateLe g).getLast? with
    | some first, some last =>
        if first.date = last.date then none
        else some (mkChangeRecord key first last)
    | _, _ => none

/-- The rows of `df` belonging to group key `k` (in row order, as pandas
`groupby` delivers them). -/
def groupRows (df : List SnapshotRow) (k : String × String) : List SnapshotRow :=
  df.filter (fun r => decide (rowKey r = k))

/-- The distinct group keys of `df` in ascending order (pandas `groupby`
default `sort=True`). -/
def groupKeys (df : List SnapshotRow) : List (String × String) :=
  sortLe keyLe ((df.map rowKey).dedup)

/-- The function `calculate_changes`: one `ChangeRecord` per (cleaned name, player type)
group that has at least two rows and distinct first/last dates. -/
def calculate_changes (df : List SnapshotRow) : List ChangeRecord :=
  (groupKeys df).filterMap (fun k => processGroup k (groupRows df k))

/-- Rule 1 predicate (source lines 120-123): major change in projected PA. -/
def majorPAPred (r : ChangeRecord) : Bool :=
  decide (15 ≤ |r.pa_pct_change|) || decide (30 ≤ |r.pa_change|)

/-- Rule 2 predicate (source lines 128-131): PTS change without PA change. -/
def ptsOnlyPred (r : ChangeRecord) : Bool :=
  decide (10 ≤ |r.pts_pct_change|) && decide (|r.pa_pct_change| < 8)

/-- The declining cohort predicate (source lines 140-143): both PA and PTS
decreased. -/
def decliningPred (r : ChangeRecord) : Bool :=
  decide (r.pa_change < 0) && decide (r.pts_change < 0)

/-- Embedding of `Series.median()`: sort the values, take the middle one (odd count) or
the mean of the two middle ones (even count); `none` for an empty series
(pandas produces NaN there, whose comparisons are all `False`). -/
def median (l : List ℚ) : Option ℚ :=
  let s := sortLe (fun a b => decide (a ≤ b)) l
  let n := s.length
  if n = 0 then none
  else if n % 2 = 1 then s[n / 2]?
  else
    match s[n / 2 - 1]?, s[n / 2]? with
    | some a, some b => some ((a + b) / 2)
    | _, _ => none

/-- Source line 146: median `pts_per_pa_change` of the batters of the
declining cohort of `df`. -/
def batterBaseline (df : List ChangeRecord) : Option ℚ :=
  median (((df.filter decliningPred).filter
    (fun r => decide (r.player_type = "batter"))).map (fun r => r.pts_per_pa_change))

/-- Source line 147: median `pts_per_pa_change` of the pitchers of the
declining cohort of `df`. -/
def pitcherBaseline (df : List ChangeRecord) : Option ℚ :=
  median (((df.filter decliningPred).filter
    (fun r => decide (r.player_type = "pitcher"))).map (fun r => r.pts_per_pa_change))

/-- Rule 3 row test (source lines 150-156): the baseline for the row's player
type (batter median for `'batter'`, pitcher median otherwise), flag when
`abs(pts_change) > abs(pa_change * baseline * 1.5)`.  A `none` baseline is
pandas' NaN median of an empty series, every comparison against which is
`False`. -/
def unusualFlag (bb pb : Option ℚ) (r : ChangeRecord) : Bool :=
  match (if r.player_type = "batter" then bb else pb) with
  | some b => decide (|r.pa_change * b * 1.5| < |r.pts_change|)
  | none => false

/-- The function `identify_anomalies` (source lines 115-178): the three rule matches, each
tagged with its `anomaly_type` label, concatenated.  The source appends only
the non-empty pieces to `all_anomalies` before `pd.concat` (lines 166-178),
which yields the same concatenation, empty pieces being neutral; the
`declining_cases.empty` short-circuit of line 145 is kept as the `if`. -/
def identify_anomalies (df : List ChangeRecord) : List (ChangeRecord × String) :=
  let major_pa_changes := df.filter majorPAPred
  let pts_only_changes := df.filter ptsOnlyPred
  let declining_cases := df.filter decliningPred
  let unusual_pts_drops :=
    if declining_cases.isEmpty then []
    else declining_cases.filter (unusualFlag (batterBaseline df) (pitcherBaseline df))
  major_pa_changes.map (fun r => (r, "Major PA Change")) ++
    pts_only_changes.map (fun r => (r, "PTS Change Without PA Change")) ++
    unusual_pts_drops.map (fun r => (r, "Unusual PTS Drop Rate"))

/-- Python's `needle in hay` substring test. -/
def strContains (hay needle : String) : Bool :=
  hay.toList.tails.any (fun s => needle.toList.isPrefixOf s)

/-- The sort key of `create_summary_report` (source lines 203-207): the
absolute PA percentage change when the anomaly-type name contains `'PA'`,
the absolute PTS percentage change otherwise. -/
def reportKey (t : String) (r : ChangeRecord) : ℚ :=
  if strContains t ("PA") then |r.pa_pct_change| else |r.pts_pct_change|

/-- The `sort_values(ascending=False)` comparator on the report sort key. -/
def reportDesc (t : String) (a b : ChangeRecord) : Bool :=
  decide (reportKey t b ≤ reportKey t a)

/-- The distinct anomaly-type labels of an anomaly table, in ascending label
order (pandas `groupby('anomaly_type')`). -/
def anomalyTypes (anoms : List (ChangeRecord × String)) : List String :=
  sortLe (fun a b => charListLe a.toList b.toList) ((anoms.map (fun p => p.2)).dedup)

/-- The record listing of `create_summary_report` (source lines 198-209):
group the anomaly table by anomaly type, sort each group in descending order
of its sort key, keep the top 15 (`group.head(15)`). -/
def create_summary_report (anoms : List (ChangeRecord × String)) :
    List (String × List ChangeRecord) :=
  (anomalyTypes anoms).map (fun t =>
    (t, ((sortLe (reportDesc t)
      ((anoms.filter (fun p => decide (p.2 = t))).map (fun p => p.1)))).take 15))

/-- The loader `load_ac_data` (source lines 9-41), abstracted over file I/O: each
element of `files` is one CSV file's load outcome — `none` when reading it
raised (the file is skipped with a diagnostic), `some rows` the date- and
type-tagged rows otherwise.  When no file loads the function returns `None`;
otherwise the loaded tables are concatenated. -/
def load_ac_data (files : List (Option (List SnapshotRow))) : Option (List SnapshotRow) :=
  let all_data := files.filterMap id
  if all_data.isEmpty then none
  else some all_data.flatten

/-- Mean of a series: `none` (NaN) when empty. -/
def qmean (l : List ℚ) : Option ℚ :=
  if l.isEmpty then none else some (l.sum / l.length)

/-- The `summary_stats` table of `save_detailed_report` (source lines
322-339); `none` values are pandas NaNs (mean/max/min of an empty frame). -/
def summary_stats (anomalies_df : List (ChangeRecord × String))
    (changes_df : List ChangeRecord) : List (String × Option ℚ) :=
  [("Total Players", some (changes_df.length : ℚ)),
   ("Total Anomalies", some (if anomalies_df.isEmpty then 0 else (anomalies_df.length : ℚ))),
   ("Avg PA Change", qmean (changes_df.map (fun r => r.pa_change))),
   ("Avg PTS Change", qmean (changes_df.map (fun r => r.pts_change))),
   ("Max PA Increase", (changes_df.map (fun r => r.pa_change)).max?),
   ("Max PA Decrease", (changes_df.map (fun r => r.pa_change)).min?),
   ("Max PTS Increase", (changes_df.map (fun r => r.pts_change)).max?),
   ("Max PTS Decrease", (changes_df.map (fun r => r.pts_change)).min?),
   ("Avg Days Tracked", qmean (changes_df.map (fun r => (r.days_tracked : ℚ)))),
   ("Players with PA Increases", some ((changes_df.countP (fun r => decide (0 < r.pa_change)) : ℚ))),
   ("Players with PTS Increases", some ((changes_df.countP (fun r => decide (0 < r.pts_change)) : ℚ)))]

/-- One CSV file written by `save_detailed_report`, with its contents. -/
inductive OutFile where
  /-- The file `projection_anomalies.csv` -/
  | anomaliesCsv (rows : List (ChangeRecord × String))
  /-- The file `all_projection_changes.csv` -/
  | allChangesCsv (rows : List ChangeRecord)
  /-- The file `projection_summary_stats.csv` -/
  | summaryStatsCsv (stats : List (String × Option ℚ))
deriving DecidableEq, Repr

/-- The writer `save_detailed_report` (source lines 309-343) as the list of files it
writes, in order: the anomalies CSV only when the anomaly table is
non-empty, then the all-changes CSV and the summary-stats CSV
unconditionally. -/
def save_detailed_report (anomalies_df : List (ChangeRecord × String))
    (changes_df : List ChangeRecord) : List OutFile :=
  (if anomalies_df.isEmpty then [] else [OutFile.anomaliesCsv anomalies_df]) ++
    [OutFile.allChangesCsv changes_df,
     OutFile.summaryStatsCsv (summary_stats anomalies_df changes_df)]

/-- The outcome of `main` (source lines 345-390): an early `"No data to
analyze!"` return, an early `"No changes detected!"` return, or a completed
run with its delta table, anomaly table and written files. -/
inductive MainResult where
  | noData : MainResult
  | noChanges : MainResult
  | completed (changes_df : List ChangeRecord)
      (anomalies_df : List (ChangeRecord × String))
      (written : List OutFile) : MainResult
deriving DecidableEq, Repr

/-- The source's `main` (lines 345-390), abstracted over file I/O exactly as
`load_ac_data` is: aborts before computing deltas when the loader returns
`None` or an empty table, aborts before anomaly detection when the delta
table is empty, and otherwise completes, writing the detailed reports. -/
def mainAnalysis (files : List (Option (List SnapshotRow))) : MainResult :=
  match load_ac_data files with
  | none => MainResult.noData
  | some df =>
    if df.isEmpty then MainResult.noData
    else
      let changes_df := calculate_changes df
      if changes_df.isEmpty then MainResult.noChanges
      else
        let anomalies_df := identify_anomalies changes_df
        MainResult.completed changes_df anomalies_df
          (save_detailed_report anomalies_df changes_df)

/-- Concrete rows used by the witnesses: one batter observed on day 0 and
day 3 with growing PA and PTS. -/
def wRow1 : SnapshotRow :=
  { Name := "x", PlayerName := "Al A", Team := "NYY", POS := "OF",
    PA := 10, PTS := 5, date := 0, player_type := "batter" }

/-- Second snapshot of the `wRow1` player. -/
def wRow2 : SnapshotRow :=
  { Name := "x", PlayerName := "Al A", Team := "NYY", POS := "OF",
    PA := 20, PTS := 8, date := 3, player_type := "batter" }

/-- The delta record of the `[wRow1, wRow2]` group. -/
def wRec12 : ChangeRecord := mkChangeRecord ("Al A", "batter") wRow1 wRow2

/-- Rows with unchanged PA for the C4 witness. -/
def wRow3 : SnapshotRow :=
  { Name := "x", PlayerName := "Bo B", Team := "BOS", POS := "C",
    PA := 10, PTS := 5, date := 0, player_type := "batter" }

/-- Second snapshot of the `wRow3` player: same PA, different PTS. -/
def wRow4 : SnapshotRow :=
  { Name := "x", PlayerName := "Bo B", Team := "BOS", POS := "C",
    PA := 10, PTS := 9, date := 2, player_type := "batter" }

/-- The delta record of the `[wRow3, wRow4]` group. -/
def wRec34 : ChangeRecord := mkChangeRecord ("Bo B", "batter") wRow3 wRow4

/-- Rows whose first snapshot has `PA = 0` for the C9 witness. -/
def wRow5 : SnapshotRow :=
  { Name := "x", PlayerName := "Cy C", Team := "LAD", POS := "P",
    PA := 0, PTS := 0, date := 0, player_type := "pitcher" }

/-- Second snapshot of the `wRow5` player, with a large PA jump. -/
def wRow6 : SnapshotRow :=
  { Name := "x", PlayerName := "Cy C", Team := "LAD", POS := "P",
    PA := 50, PTS := 60, date := 4, player_type := "pitcher" }

/-- The delta record of the `[wRow5, wRow6]` group. -/
def wRec56 : ChangeRecord := mkChangeRecord ("Cy C", "pitcher") wRow5 wRow6

/-- The baseline chosen for a row in rule 3 (source line 151):
`batter_baseline if row['player_type'] == 'batter' else pitcher_baseline`. -/
def baselineFor (df : List ChangeRecord) (t : String) : Option ℚ :=
  if t = "batter" then batterBaseline df else pitcherBaseline df

/-- The spec's concrete example for C1: PA 100→70 (−30, −30%), PTS 200→190
(−10, −5%). -/
def cRecC1 : ChangeRecord :=
  { player_name := "Da D", player_type := "batter", first_date := 0,
    last_date := 3, days_tracked := 3, first_PA := 100, last_PA := 70,
    first_PTS := 200, last_PTS := 190, pa_change := -30, pts_change := -10,
    pa_pct_change := -30, pts_pct_change := -5, pts_per_pa_change := 1/3,
    pa_change_per_day := -10, pts_change_per_day := -10/3, team := "T",
    position := "OF" }

/-- A declining pitcher with `pts_per_pa_change = 2` (witness cohort mate). -/
def rP1 : ChangeRecord :=
  { player_name := "Ed E", player_type := "pitcher", first_date := 0,
    last_date := 5, days_tracked := 5, first_PA := 60, last_PA := 50,
    first_PTS := 120, last_PTS := 100, pa_change := -10, pts_change := -20,
    pa_pct_change := -50/3, pts_pct_change := -50/3, pts_per_pa_change := 2,
    pa_change_per_day := -2, pts_change_per_day := -4, team := "T",
    position := "P" }

/-- A declining pitcher dropping PTS much faster than the cohort baseline
(witness for rule 3: cohort median is `(2+7)/2`, and
`|-70| > 1.5 * |-10 * (2+7)/2|`). -/
def rP2 : ChangeRecord :=
  { player_name := "Fa F", player_type := "pitcher", first_date := 0,
    last_date := 5, days_tracked := 5, first_PA := 60, last_PA := 50,
    first_PTS := 150, last_PTS := 80, pa_change := -10, pts_change := -70,
    pa_pct_change := -50/3, pts_pct_change := -140/3, pts_per_pa_change := 7,
    pa_change_per_day := -2, pts_change_per_day := -14, team := "T",
    position := "P" }

/-- A record matching both rule 1 (|pa_change| = 30 ≥ 30) and rule 2
(|pts_pct| = 12 ≥ 10, |pa_pct| = 5 < 8) and not in the declining cohort. -/
def cRecC6 : ChangeRecord :=
  { player_name := "Gi G", player_type := "batter", first_date := 0,
    last_date := 6, days_tracked := 6, first_PA := 600, last_PA := 630,
    first_PTS := 500, last_PTS := 560, pa_change := 30, pts_change := 60,
    pa_pct_change := 5, pts_pct_change := 12, pts_per_pa_change := 2,
    pa_change_per_day := 5, pts_change_per_day := 10, team := "T",
    position := "2B" }

/-- Report counterexample record: small PA-axis magnitude, large PTS-axis
magnitude. -/
def cRecA : ChangeRecord :=
  { player_name := "Hi H", player_type := "batter", first_date := 0,
    last_date := 1, days_tracked := 1, first_PA := 100, last_PA := 101,
    first_PTS := 100, last_PTS := 150, pa_change := 1, pts_change := 50,
    pa_pct_change := 1, pts_pct_change := 50, pts_per_pa_change := 50,
    pa_change_per_day := 1, pts_change_per_day := 50, team := "T",
    position := "SS" }

/-- Report counterexample record: larger PA-axis magnitude than `cRecA` but
smaller PTS-axis magnitude. -/
def cRecB : ChangeRecord :=
  { player_name := "Io I", player_type := "batter", first_date := 0,
    last_date := 1, days_tracked := 1, first_PA := 100, last_PA := 105,
    first_PTS := 100, last_PTS := 140, pa_change := 5, pts_change := 40,
    pa_pct_change := 5, pts_pct_change := 40, pts_per_pa_change := 8,
    pa_change_per_day := 5, pts_change_per_day := 40, team := "T",
    position := "SS" }

theorem mem_insertLe {le : α → α → Bool} {a x : α} :
    ∀ {l : List α}, x ∈ insertLe le a l ↔ x = a ∨ x ∈ l
  | [] => by simp [insertLe]
  | b :: bs => by
    simp only [insertLe]
    split
    · simp [List.mem_cons]
    · simp only [List.mem_cons, mem_insertLe (l := bs)]
      tauto

theorem mem_sortLe {le : α → α → Bool} {x : α} :
    ∀ {l : List α}, x ∈ sortLe le l ↔ x ∈ l
  | [] => by simp [sortLe]
  | b :: bs => by
    simp only [sortLe, mem_insertLe, mem_sortLe (l := bs), List.mem_cons]

theorem length_insertLe {le : α → α → Bool} {a : α} :
    ∀ {l : List α}, (insertLe le a l).length = l.length + 1
  | [] => rfl
  | b :: bs => by
    simp only [insertLe]
    split
    · simp
    · simp [length_insertLe (l := bs)]

theorem length_sortLe {le : α → α → Bool} :
    ∀ {l : List α}, (sortLe le l).length = l.length
  | [] => rfl
  | b :: bs => by simp [sortLe, length_insertLe, length_sortLe (l := bs)]

theorem pairwise_insertLe {le : α → α → Bool}
    (htrans : ∀ x y z, le x y = true → le y z = true → le x z = true)
    (htotal : ∀ x y, le x y || le y x) (a : α) {l : List α}
    (h : l.Pairwise (fun x y => le x y = true)) :
    (insertLe le a l).Pairwise (fun x y => le x y = true) := by
  induction l with
  | nil => simp [insertLe]
  | cons b bs ih =>
    rcases List.pairwise_cons.mp h with ⟨hb, hbs⟩
    simp only [insertLe]
    split
    · rename_i hab
      refine List.pairwise_cons.mpr ⟨?_, h⟩
      intro y hy
      rcases List.mem_cons.mp hy with rfl | hy
      · exact hab
      · exact htrans a b y hab (hb y hy)
    · rename_i hab
      refine List.pairwise_cons.mpr ⟨?_, ih hbs⟩
      intro y hy
      rcases mem_insertLe.mp hy with rfl | hy
      · have := htotal y b
        simp only [Bool.or_eq_true] at this
        rcases this with h1 | h1
        · exact absurd h1 hab
        · exact h1
      · exact hb y hy

theorem pairwise_sortLe {le : α → α → Bool}
    (htrans : ∀ x y z, le x y = true → le y z = true → le x z = true)
    (htotal : ∀ x y, le x y || le y x) :
    ∀ (l : List α), (sortLe le l).Pairwise (fun x y => le x y = true)
  | [] => by simp [sortLe]
  | b :: bs => pairwise_insertLe htrans htotal b (pairwise_sortLe htrans htotal bs)

theorem mem_of_head?_eq_some {l : List α} {a : α} (h : l.head? = some a) : a ∈ l := by
  cases l <;> simp_all

theorem head?_rel_of_pairwise {R : α → α → Prop} (hrefl : ∀ a, R a a)
    {l : List α} (h : l.Pairwise R) {f : α} (hf : l.head? = some f) :
    ∀ x ∈ l, R f x := by
  cases l with
  | nil => simp at hf
  | cons a t =>
    simp only [List.head?_cons, Option.some.injEq] at hf
    subst hf
    rcases List.pairwise_cons.mp h with ⟨ha, _⟩
    intro x hx
    rcases List.mem_cons.mp hx with rfl | hx
    · exact hrefl x
    · exact ha x hx

theorem rel_getLast?_of_pairwise {R : α → α → Prop} (hrefl : ∀ a, R a a) :
    ∀ {l : List α}, l.Pairwise R → ∀ {g : α}, l.getLast? = some g → ∀ x ∈ l, R x g
  | [], _, _, hg => by simp at hg
  | [a], _, g, hg => by
    simp only [List.getLast?_singleton, Option.some.injEq] at hg
    subst hg
    intro x hx
    rcases List.mem_singleton.mp hx with rfl
    exact hrefl x
  | a :: b :: t, h, g, hg => by
    rw [List.getLast?_cons_cons] at hg
    rcases List.pairwise_cons.mp h with ⟨ha, ht⟩
    have ih := rel_getLast?_of_pairwise hrefl ht hg
    intro x hx
    rcases List.mem_cons.mp hx with rfl | hx
    · exact ha g (List.mem_of_getLast?_eq_some hg)
    · exact ih x hx

theorem median_isSome {l : List ℚ} (h : l ≠ []) : ∃ b, median l = some b := by
  have hlen : (sortLe (fun a b => decide (a ≤ b)) l).length = l.length := length_sortLe
  have hpos : 0 < (sortLe (fun a b => decide (a ≤ b)) l).length := by
    rw [hlen]
    exact List.length_pos.mpr h
  simp only [median]
  rw [if_neg (by omega)]
  have hd : (sortLe (fun a b => decide (a ≤ b)) l).length / 2 <
      (sortLe (fun a b => decide (a ≤ b)) l).length := Nat.div_lt_self hpos one_lt_two
  by_cases hpar : (sortLe (fun a b => decide (a ≤ b)) l).length % 2 = 1
  · rw [if_pos hpar, List.getElem?_eq_getElem hd]
    exact ⟨_, rfl⟩
  · rw [if_neg hpar]
    have hlt1 : (sortLe (fun a b => decide (a ≤ b)) l).length / 2 - 1 <
        (sortLe (fun a b => decide (a ≤ b)) l).length :=
      lt_of_le_of_lt (Nat.sub_le _ _) hd
    rw [List.getElem?_eq_getElem hd, List.getElem?_eq_getElem hlt1]
    exact ⟨_, rfl⟩

theorem dateLe_refl : ∀ a : SnapshotRow, dateLe a a = true := by
  intro a
  simp [dateLe]

theorem dateLe_trans : ∀ x y z : SnapshotRow,
    dateLe x y = true → dateLe y z = true → dateLe x z = true := by
  intro x y z
  simp only [dateLe, decide_eq_true_eq]
  omega

theorem dateLe_total : ∀ x y : SnapshotRow, dateLe x y || dateLe y x := by
  intro x y
  simp only [dateLe, Bool.or_eq_true, decide_eq_true_eq]
  omega

theorem mem_calculate_changes {df : List SnapshotRow} {rec : ChangeRecord} :
    rec ∈ calculate_changes df ↔
      ∃ k ∈ groupKeys df, processGroup k (groupRows df k) = some rec := by
  simp [calculate_changes, List.mem_filterMap]

theorem processGroup_eq_some {k : String × String} {g : List SnapshotRow}
    {rec : ChangeRecord} (h : processGroup k g = some rec) :
    2 ≤ g.length ∧ ∃ f l, (sortLe dateLe g).head? = some f ∧
      (sortLe dateLe g).getLast? = some l ∧ f.date ≠ l.date ∧
      rec = mkChangeRecord k f l := by
  unfold processGroup at h
  split at h
  · simp at h
  · rename_i hlen
    refine ⟨by omega, ?_⟩
    rcases hh : (sortLe dateLe g).head? with _ | f
    · rw [hh] at h
      simp at h
    · rcases hl : (sortLe dateLe g).getLast? with _ | l
      · rw [hh, hl] at h
        simp at h
      · rw [hh, hl] at h
        simp only at h
        split at h
        · simp at h
        · rename_i hne
          refine ⟨f, l, rfl, rfl, hne, ?_⟩
          simpa using h.symm

theorem mkChangeRecord_first_date (k : String × String) (f l : SnapshotRow) :
    (mkChangeRecord k f l).first_date = f.date := rfl

theorem mkChangeRecord_last_date (k : String × String) (f l : SnapshotRow) :
    (mkChangeRecord k f l).last_date = l.date := rfl

theorem mkChangeRecord_days_tracked (k : String × String) (f l : SnapshotRow) :
    (mkChangeRecord k f l).days_tracked = l.date - f.date := rfl

theorem mkChangeRecord_pa_change (k : String × String) (f l : SnapshotRow) :
    (mkChangeRecord k f l).pa_change = l.PA - f.PA := rfl

theorem mkChangeRecord_first_PA (k : String × String) (f l : SnapshotRow) :
    (mkChangeRecord k f l).first_PA = f.PA := rfl

theorem mkChangeRecord_first_PTS (k : String × String) (f l : SnapshotRow) :
    (mkChangeRecord k f l).first_PTS = f.PTS := rfl

theorem mkChangeRecord_pa_pct_change (k : String × String) (f l : SnapshotRow) :
    (mkChangeRecord k f l).pa_pct_change =
      if 0 < f.PA then (l.PA - f.PA) / f.PA * 100 else 0 := rfl

theorem mkChangeRecord_pts_pct_change (k : String × String) (f l : SnapshotRow) :
    (mkChangeRecord k f l).pts_pct_change =
      if 0 < f.PTS then (l.PTS - f.PTS) / f.PTS * 100 else 0 := rfl

theorem mkChangeRecord_pts_per_pa_change (k : String × String) (f l : SnapshotRow) :
    (mkChangeRecord k f l).pts_per_pa_change =
      if l.PA - f.PA ≠ 0 then (l.PTS - f.PTS) / (l.PA - f.PA) else 0 := rfl

theorem mkChangeRecord_pa_change_per_day (k : String × String) (f l : SnapshotRow) :
    (mkChangeRecord k f l).pa_change_per_day =
      if 0 < l.date - f.date then (l.PA - f.PA) / ((l.date - f.date : ℤ) : ℚ) else 0 := rfl

theorem processGroup_bounds {k : String × String} {g : List SnapshotRow}
    {rec : ChangeRecord} (h : processGroup k g = some rec) :
    rec.first_date < rec.last_date ∧ rec.days_tracked = rec.last_date - rec.first_date ∧
      ∀ r ∈ g, rec.first_date ≤ r.date ∧ r.date ≤ rec.last_date := by
  obtain ⟨hlen, f, l, hh, hl, hne, hrec⟩ := processGroup_eq_some h
  have hpair := pairwise_sortLe dateLe_trans dateLe_total g
  have hfst := head?_rel_of_pairwise dateLe_refl hpair hh
  have hlast := rel_getLast?_of_pairwise dateLe_refl hpair hl
  have hfl : f.date ≤ l.date := by
    have hmem : l ∈ sortLe dateLe g := List.mem_of_getLast?_eq_some hl
    simpa [dateLe] using hfst l hmem
  subst hrec
  refine ⟨?_, ?_, ?_⟩
  · rw [mkChangeRecord_first_date, mkChangeRecord_last_date]
    omega
  · rw [mkChangeRecord_first_date, mkChangeRecord_last_date, mkChangeRecord_days_tracked]
  · intro r hr
    have hr' : r ∈ sortLe dateLe g := mem_sortLe.mpr hr
    have h1 := hfst r hr'
    have h2 := hlast r hr'
    rw [mkChangeRecord_first_date, mkChangeRecord_last_date]
    simp only [dateLe, decide_eq_true_eq] at h1 h2
    exact ⟨h1, h2⟩

/-- C3: every delta record has `days_tracked ≥ 1`; a player group whose
first and last snapshot (after sorting by date ascending) share the same
date, or that has fewer than two rows, yields no delta record; and the
anchors are the earliest and latest rows of the group (every row's date lies
between the record's `first_date` and `last_date`). -/
theorem calculate_changes_days_tracked :
    (∀ (df : List SnapshotRow) (rec : ChangeRecord), rec ∈ calculate_changes df →
        1 ≤ rec.days_tracked ∧ rec.first_date < rec.last_date ∧
        ∃ k ∈ groupKeys df, processGroup k (groupRows df k) = some rec ∧
          ∀ r ∈ groupRows df k, rec.first_date ≤ r.date ∧ r.date ≤ rec.last_date) ∧
    (∀ (k : String × String) (g : List SnapshotRow), g.length < 2 →
        processGroup k g = none) ∧
    (∀ (k : String × String) (g : List SnapshotRow),
        (∀ r ∈ g, ∀ s ∈ g, r.date = s.date) → processGroup k g = none) := by
  refine ⟨?_, ?_, ?_⟩
  · intro df rec hmem
    obtain ⟨k, hk, hpg⟩ := mem_calculate_changes.mp hmem
    obtain ⟨hlt, hdays, hbounds⟩ := processGroup_bounds hpg
    exact ⟨by omega, hlt, k, hk, hpg, hbounds⟩
  · intro k g h
    unfold processGroup
    rw [if_pos h]
  · intro k g hd
    unfold processGroup
    split
    · rfl
    · rcases hh : (sortLe dateLe g).head? with _ | f
      · rfl
      · rcases hl : (sortLe dateLe g).getLast? with _ | l
        · rfl
        · have hf : f ∈ g := mem_sortLe.mp (mem_of_head?_eq_some hh)
          have hli : l ∈ g := mem_sortLe.mp (List.mem_of_getLast?_eq_some hl)
          have heq : f.date = l.date := hd f hf l hli
          simp [heq]

theorem calculate_changes_days_tracked_witness :
    1 ≤ wRec12.days_tracked ∧ processGroup ("Al A", "batter") [wRow1] = none :=
  ⟨(calculate_changes_days_tracked.1 [wRow1, wRow2] wRec12 (by
      have h : calculate_changes [wRow1, wRow2] = [wRec12] := rfl
      rw [h]
      exact List.mem_singleton.mpr rfl)).1,
    calculate_changes_days_tracked.2.1 ("Al A", "batter") [wRow1] (by simp)⟩

/-- C4: delta computation never divides by zero — for every delta record with
`pa_change = 0`, both `pts_per_pa_change` and `pa_change_per_day` take the
guarded value `0` (the latter being `0 / days_tracked = 0`). -/
theorem calculate_changes_zero_guards :
    ∀ (df : List SnapshotRow) (rec : ChangeRecord), rec ∈ calculate_changes df →
      rec.pa_change = 0 → rec.pts_per_pa_change = 0 ∧ rec.pa_change_per_day = 0 := by
  intro df rec hmem h0
  obtain ⟨k, hk, hpg⟩ := mem_calculate_changes.mp hmem
  obtain ⟨_, f, l, hh, hl, hne, hrec⟩ := processGroup_eq_some hpg
  subst hrec
  rw [mkChangeRecord_pa_change] at h0
  constructor
  · rw [mkChangeRecord_pts_per_pa_change, if_neg (by simp [h0])]
  · rw [mkChangeRecord_pa_change_per_day, h0]
    split
    · exact zero_div _
    · rfl

theorem calculate_changes_zero_guards_witness :
    wRec34.pts_per_pa_change = 0 ∧ wRec34.pa_change_per_day = 0 :=
  calculate_changes_zero_guards [wRow3, wRow4] wRec34
    (by
      have h : calculate_changes [wRow3, wRow4] = [wRec34] := rfl
      rw [h]
      exact List.mem_singleton.mpr rfl)
    (by
      show (mkChangeRecord ("Bo B", "batter") wRow3 wRow4).pa_change = 0
      rw [mkChangeRecord_pa_change]
      show (10 : ℚ) - 10 = 0
      simp)

/-- C9: the percentage-change guard fires for all non-positive first values:
`first_PA ≤ 0` forces `pa_pct_change = 0` and `first_PTS ≤ 0` forces
`pts_pct_change = 0`; hence a record whose first-snapshot PA is `0` can
never trigger the percentage branch of the Major PA Change rule. -/
theorem pct_guard_nonpositive_first :
    ∀ (df : List SnapshotRow) (rec : ChangeRecord), rec ∈ calculate_changes df →
      (rec.first_PA ≤ 0 → rec.pa_pct_change = 0) ∧
      (rec.first_PTS ≤ 0 → rec.pts_pct_change = 0) ∧
      (rec.first_PA = 0 → ¬ 15 ≤ |rec.pa_pct_change|) := by
  intro df rec hmem
  obtain ⟨k, hk, hpg⟩ := mem_calculate_changes.mp hmem
  obtain ⟨_, f, l, hh, hl, hne, hrec⟩ := processGroup_eq_some hpg
  subst hrec
  have hpa : (mkChangeRecord k f l).first_PA = f.PA := mkChangeRecord_first_PA k f l
  have hpts : (mkChangeRecord k f l).first_PTS = f.PTS := mkChangeRecord_first_PTS k f l
  refine ⟨?_, ?_, ?_⟩
  · intro h
    rw [hpa] at h
    rw [mkChangeRecord_pa_pct_change, if_neg (by linarith)]
  · intro h
    rw [hpts] at h
    rw [mkChangeRecord_pts_pct_change, if_neg (by linarith)]
  · intro h
    rw [hpa] at h
    rw [mkChangeRecord_pa_pct_change, if_neg (by rw [h]; exact lt_irrefl 0)]
    norm_num

theorem pct_guard_nonpositive_first_witness :
    wRec56.pa_pct_change = 0 ∧ ¬ 15 ≤ |wRec56.pa_pct_change| :=
  have hmem : wRec56 ∈ calculate_changes [wRow5, wRow6] := by
    have h : calculate_changes [wRow5, wRow6] = [wRec56] := rfl
    rw [h]
    exact List.mem_singleton.mpr rfl
  ⟨(pct_guard_nonpositive_first [wRow5, wRow6] wRec56 hmem).1 (le_of_eq rfl),
    (pct_guard_nonpositive_first [wRow5, wRow6] wRec56 hmem).2.2 rfl⟩

theorem majorPAPred_iff {r : ChangeRecord} :
    majorPAPred r = true ↔ (15 ≤ |r.pa_pct_change| ∨ 30 ≤ |r.pa_change|) := by
  simp [majorPAPred]

theorem ptsOnlyPred_iff {r : ChangeRecord} :
    ptsOnlyPred r = true ↔ (10 ≤ |r.pts_pct_change| ∧ |r.pa_pct_change| < 8) := by
  simp [ptsOnlyPred]

theorem decliningPred_iff {r : ChangeRecord} :
    decliningPred r = true ↔ (r.pa_change < 0 ∧ r.pts_change < 0) := by
  simp [decliningPred]

theorem unusualFlag_iff {bb pb : Option ℚ} {r : ChangeRecord} :
    unusualFlag bb pb r = true ↔
      ∃ b, (if r.player_type = "batter" then bb else pb) = some b ∧
        |r.pa_change * b * 1.5| < |r.pts_change| := by
  unfold unusualFlag
  cases h : (if r.player_type = "batter" then bb else pb) with
  | none => simp [h]
  | some b => simp [h]

theorem mem_identify_anomalies {df : List ChangeRecord} {r : ChangeRecord} {t : String} :
    (r, t) ∈ identify_anomalies df ↔
      (t = "Major PA Change" ∧ r ∈ df ∧ majorPAPred r = true) ∨
      (t = "PTS Change Without PA Change" ∧ r ∈ df ∧ ptsOnlyPred r = true) ∨
      (t = "Unusual PTS Drop Rate" ∧ r ∈ df ∧ decliningPred r = true ∧
        unusualFlag (batterBaseline df) (pitcherBaseline df) r = true) := by
  simp only [identify_anomalies]
  constructor
  · intro h
    rcases List.mem_append.mp h with h12 | h3
    · rcases List.mem_append.mp h12 with h1 | h2
      · obtain ⟨a, ha, heq⟩ := List.mem_map.mp h1
        obtain ⟨ha1, ha2⟩ := List.mem_filter.mp ha
        obtain ⟨har, hat⟩ := Prod.mk.injEq .. ▸ heq
        subst har
        exact Or.inl ⟨hat.symm, ha1, ha2⟩
      · obtain ⟨a, ha, heq⟩ := List.mem_map.mp h2
        obtain ⟨ha1, ha2⟩ := List.mem_filter.mp ha
        obtain ⟨har, hat⟩ := Prod.mk.injEq .. ▸ heq
        subst har
        exact Or.inr (Or.inl ⟨hat.symm, ha1, ha2⟩)
    · obtain ⟨a, ha, heq⟩ := List.mem_map.mp h3
      obtain ⟨har, hat⟩ := Prod.mk.injEq .. ▸ heq
      subst har
      split at ha
      · simp at ha
      · obtain ⟨hdf, hflag⟩ := List.mem_filter.mp ha
        obtain ⟨hdf2, hdec⟩ := List.mem_filter.mp hdf
        exact Or.inr (Or.inr ⟨hat.symm, hdf2, hdec, hflag⟩)
  · intro h
    rcases h with ⟨ht, ha, hp⟩ | ⟨ht, ha, hp⟩ | ⟨ht, ha, hdec, hflag⟩
    · subst ht
      exact List.mem_append.mpr (Or.inl (List.mem_append.mpr (Or.inl
        (List.mem_map.mpr ⟨r, List.mem_filter.mpr ⟨ha, hp⟩, rfl⟩))))
    · subst ht
      exact List.mem_append.mpr (Or.inl (List.mem_append.mpr (Or.inr
        (List.mem_map.mpr ⟨r, List.mem_filter.mpr ⟨ha, hp⟩, rfl⟩))))
    · subst ht
      refine List.mem_append.mpr (Or.inr (List.mem_map.mpr ⟨r, ?_, rfl⟩))
      have hr : r ∈ df.filter decliningPred := List.mem_filter.mpr ⟨ha, hdec⟩
      rw [if_neg (by
        simp only [List.isEmpty_eq_true]
        exact List.ne_nil_of_mem hr)]
      exact List.mem_filter.mpr ⟨hr, hflag⟩

/-- C1: a delta record is labelled `Major PA Change` iff
`|pa_pct_change| ≥ 15` or `|pa_change| ≥ 30`, and labelled
`PTS Change Without PA Change` iff `|pts_pct_change| ≥ 10` and
`|pa_pct_change| < 8`; in particular the spec's example record
(`pa_pct_change = -30`, `pts_pct_change = -5`) receives the first label and
not the second. -/
theorem identify_anomalies_pa_pts_labels :
    (∀ (df : List ChangeRecord) (r : ChangeRecord),
        ((r, "Major PA Change") ∈ identify_anomalies df ↔
          r ∈ df ∧ (15 ≤ |r.pa_pct_change| ∨ 30 ≤ |r.pa_change|)) ∧
        ((r, "PTS Change Without PA Change") ∈ identify_anomalies df ↔
          r ∈ df ∧ (10 ≤ |r.pts_pct_change| ∧ |r.pa_pct_change| < 8))) ∧
    (cRecC1, "Major PA Change") ∈ identify_anomalies [cRecC1] ∧
    (cRecC1, "PTS Change Without PA Change") ∉ identify_anomalies [cRecC1] := by
  have main : ∀ (df : List ChangeRecord) (r : ChangeRecord),
      ((r, "Major PA Change") ∈ identify_anomalies df ↔
        r ∈ df ∧ (15 ≤ |r.pa_pct_change| ∨ 30 ≤ |r.pa_change|)) ∧
      ((r, "PTS Change Without PA Change") ∈ identify_anomalies df ↔
        r ∈ df ∧ (10 ≤ |r.pts_pct_change| ∧ |r.pa_pct_change| < 8)) := by
    intro df r
    constructor
    · rw [mem_identify_anomalies]
      constructor
      · rintro (⟨_, ha, hp⟩ | ⟨hbad, _⟩ | ⟨hbad, _⟩)
        · exact ⟨ha, majorPAPred_iff.mp hp⟩
        · exact absurd hbad (by decide)
        · exact absurd hbad (by decide)
      · rintro ⟨ha, hp⟩
        exact Or.inl ⟨rfl, ha, majorPAPred_iff.mpr hp⟩
    · rw [mem_identify_anomalies]
      constructor
      · rintro (⟨hbad, _⟩ | ⟨_, ha, hp⟩ | ⟨hbad, _⟩)
        · exact absurd hbad (by decide)
        · exact ⟨ha, ptsOnlyPred_iff.mp hp⟩
        · exact absurd hbad (by decide)
      · rintro ⟨ha, hp⟩
        exact Or.inr (Or.inl ⟨rfl, ha, ptsOnlyPred_iff.mpr hp⟩)
  refine ⟨main, ?_, ?_⟩
  · exact (main [cRecC1] cRecC1).1.mpr
      ⟨List.mem_singleton.mpr rfl, Or.inl (by norm_num [cRecC1])⟩
  · intro h
    have hc := ((main [cRecC1] cRecC1).2.mp h).2.1
    norm_num [cRecC1] at hc

/-- C2: a record is labelled `Unusual PTS Drop Rate` iff it belongs to the
declining cohort (`pa_change < 0` and `pts_change < 0`) and
`|pts_change| > 1.5 * |pa_change * baseline(player_type)|`, where the
baseline is the per-type median `pts_per_pa_change` over the cohort; records
outside the cohort are never flagged, and for cohort members that are
batters or pitchers the baseline is always defined. -/
theorem identify_anomalies_unusual_rule :
    (∀ (df : List ChangeRecord) (r : ChangeRecord),
        ((r, "Unusual PTS Drop Rate") ∈ identify_anomalies df ↔
          r ∈ df ∧ r.pa_change < 0 ∧ r.pts_change < 0 ∧
            ∃ b, baselineFor df r.player_type = some b ∧
              1.5 * |r.pa_change * b| < |r.pts_change|)) ∧
    (∀ (df : List ChangeRecord) (r : ChangeRecord),
        r ∈ df → r.pa_change < 0 → r.pts_change < 0 →
        (r.player_type = "batter" ∨ r.player_type = "pitcher") →
        (baselineFor df r.player_type).isSome = true) := by
  have habs : ∀ (x b : ℚ), |x * b * 1.5| = 1.5 * |x * b| := by
    intro x b
    rw [abs_mul]
    rw [show |(1.5 : ℚ)| = 1.5 by norm_num]
    ring
  constructor
  · intro df r
    rw [mem_identify_anomalies]
    constructor
    · rintro (⟨hbad, _⟩ | ⟨hbad, _⟩ | ⟨_, ha, hdec, hflag⟩)
      · exact absurd hbad (by decide)
      · exact absurd hbad (by decide)
      · obtain ⟨hpa, hpts⟩ := decliningPred_iff.mp hdec
        obtain ⟨b, hb, hlt⟩ := unusualFlag_iff.mp hflag
        refine ⟨ha, hpa, hpts, b, ?_, ?_⟩
        · rw [baselineFor]
          exact hb
        · rw [← habs]
          exact hlt
    · rintro ⟨ha, hpa, hpts, b, hb, hlt⟩
      refine Or.inr (Or.inr ⟨rfl, ha, decliningPred_iff.mpr ⟨hpa, hpts⟩, ?_⟩)
      refine unusualFlag_iff.mpr ⟨b, ?_, ?_⟩
      · rw [baselineFor] at hb
        exact hb
      · rw [habs]
        exact hlt
  · intro df r hmem hpa hpts htype
    have hdec : decliningPred r = true := decliningPred_iff.mpr ⟨hpa, hpts⟩
    rcases htype with hb | hp
    · have hr : r ∈ (df.filter decliningPred).filter
          (fun x => decide (x.player_type = "batter")) :=
        List.mem_filter.mpr ⟨List.mem_filter.mpr ⟨hmem, hdec⟩, by simp [hb]⟩
      have hlist : ((df.filter decliningPred).filter
          (fun x => decide (x.player_type = "batter"))).map
            (fun x => x.pts_per_pa_change) ≠ [] := by
        simp only [ne_eq, List.map_eq_nil_iff]
        exact List.ne_nil_of_mem hr
      obtain ⟨b, hbmed⟩ := median_isSome hlist
      rw [baselineFor, hb, if_pos rfl, batterBaseline, hbmed]
      rfl
    · have hr : r ∈ (df.filter decliningPred).filter
          (fun x => decide (x.player_type = "pitcher")) :=
        List.mem_filter.mpr ⟨List.mem_filter.mpr ⟨hmem, hdec⟩, by simp [hp]⟩
      have hlist : ((df.filter decliningPred).filter
          (fun x => decide (x.player_type = "pitcher"))).map
            (fun x => x.pts_per_pa_change) ≠ [] := by
        simp only [ne_eq, List.map_eq_nil_iff]
        exact List.ne_nil_of_mem hr
      obtain ⟨b, hbmed⟩ := median_isSome hlist
      rw [baselineFor, hp, if_neg (by decide), pitcherBaseline, hbmed]
      rfl

theorem identify_anomalies_unusual_rule_witness :
    (rP2, "Unusual PTS Drop Rate") ∈ identify_anomalies [rP1, rP2] :=
  (identify_anomalies_unusual_rule.1 [rP1, rP2] rP2).mpr
    ⟨by simp, by norm_num [rP2], by norm_num [rP2],
      (2 + 7) / 2, rfl, by norm_num [rP2]⟩

theorem countP_filter_decide {α : Type} [DecidableEq α] (l : List α) (r : α) (q : α → Bool) :
    (l.filter q).countP (fun x => decide (x = r)) =
      if q r = true then l.countP (fun x => decide (x = r)) else 0 := by
  rw [List.countP_filter]
  split
  · rename_i hq
    refine List.countP_congr ?_
    intro a _
    by_cases ha : a = r
    · subst ha
      simp [hq]
    · simp [ha]
  · rename_i hq
    refine List.countP_eq_zero.mpr ?_
    intro a _
    by_cases ha : a = r
    · subst ha
      simp only [Bool.and_eq_true, decide_eq_true_eq]
      rintro ⟨_, hqa⟩
      exact hq hqa
    · simp [ha]

theorem countP_map_label (L : String) (r : ChangeRecord) (lst : List ChangeRecord) :
    (lst.map (fun x => (x, L))).countP (fun p => decide (p.1 = r)) =
      lst.countP (fun x => decide (x = r)) := by
  rw [List.countP_map]
  rfl

/-- C6: the anomaly table is the row-wise concatenation of the three matched
subsets without deduplication — a delta record occurring once in the input
appears exactly once per matching rule in the output — and every output row
carries exactly one of the three anomaly-type labels. -/
theorem identify_anomalies_multiplicity :
    ∀ (df : List ChangeRecord) (r : ChangeRecord),
      (df.countP (fun x => decide (x = r)) = 1 →
        (identify_anomalies df).countP (fun p => decide (p.1 = r)) =
          (if majorPAPred r then 1 else 0) + (if ptsOnlyPred r then 1 else 0) +
            (if decliningPred r &&
                unusualFlag (batterBaseline df) (pitcherBaseline df) r then 1 else 0)) ∧
      (∀ p ∈ identify_anomalies df, p.2 = "Major PA Change" ∨
        p.2 = "PTS Change Without PA Change" ∨ p.2 = "Unusual PTS Drop Rate") := by
  intro df r
  constructor
  · intro hcount
    have hmem : r ∈ df := by
      have hpos : 0 < df.countP (fun x => decide (x = r)) := by omega
      obtain ⟨a, ha, hpa⟩ := List.countP_pos_iff.mp hpos
      have : a = r := of_decide_eq_true hpa
      subst this
      exact ha
    simp only [identify_anomalies]
    rw [List.countP_append, List.countP_append, countP_map_label, countP_map_label,
      countP_map_label, countP_filter_decide df r majorPAPred,
      countP_filter_decide df r ptsOnlyPred, hcount]
    by_cases hemp : (df.filter decliningPred).isEmpty = true
    · have hdecf : decliningPred r = false := by
        cases hdec : decliningPred r
        · rfl
        · exfalso
          have hr : r ∈ df.filter decliningPred := List.mem_filter.mpr ⟨hmem, hdec⟩
          rw [List.isEmpty_eq_true] at hemp
          rw [hemp] at hr
          simp at hr
      rw [if_pos hemp, hdecf]
      simp
    · rw [if_neg hemp,
        countP_filter_decide (df.filter decliningPred) r
          (unusualFlag (batterBaseline df) (pitcherBaseline df)),
        countP_filter_decide df r decliningPred, hcount]
      cases hdec : decliningPred r <;>
        cases hflag : unusualFlag (batterBaseline df) (pitcherBaseline df) r <;>
          simp [hdec, hflag]
  · intro p hp
    simp only [identify_anomalies] at hp
    rcases List.mem_append.mp hp with h12 | h3
    · rcases List.mem_append.mp h12 with h1 | h2
      · obtain ⟨a, _, heq⟩ := List.mem_map.mp h1
        exact Or.inl (by rw [← heq])
      · obtain ⟨a, _, heq⟩ := List.mem_map.mp h2
        exact Or.inr (Or.inl (by rw [← heq]))
    · obtain ⟨a, _, heq⟩ := List.mem_map.mp h3
      exact Or.inr (Or.inr (by rw [← heq]))

theorem identify_anomalies_multiplicity_witness :
    (identify_anomalies [cRecC6]).countP (fun p => decide (p.1 = cRecC6)) = 2 :=
  ((identify_anomalies_multiplicity [cRecC6] cRecC6).1 (by decide)).trans (by decide)

/-- C5 (amended): the report generator groups anomalies by type, sorts each
group in descending order of the sort key — `|pa_pct_change|` whenever the
type name contains the substring `'PA'` (which holds for both
`Major PA Change` and `PTS Change Without PA Change`), `|pts_pct_change|`
otherwise (e.g. `Unusual PTS Drop Rate`) — and emits at most 15 records per
type. -/
theorem create_summary_report_sorting :
    (∀ (anoms : List (ChangeRecord × String)) (t : String) (g : List ChangeRecord),
        (t, g) ∈ create_summary_report anoms →
          g.length ≤ 15 ∧ g.Pairwise (fun a b => reportKey t b ≤ reportKey t a)) ∧
    (∀ r : ChangeRecord, reportKey ("Major PA Change") r = |r.pa_pct_change|) ∧
    (∀ r : ChangeRecord, reportKey ("PTS Change Without PA Change") r = |r.pa_pct_change|) ∧
    (∀ r : ChangeRecord, reportKey ("Unusual PTS Drop Rate") r = |r.pts_pct_change|) := by
  refine ⟨?_, fun r => rfl, fun r => rfl, fun r => rfl⟩
  intro anoms t g hmem
  simp only [create_summary_report] at hmem
  obtain ⟨t', _, heq⟩ := List.mem_map.mp hmem
  obtain ⟨h1, h2⟩ := Prod.mk.injEq .. ▸ heq
  subst h1
  constructor
  · rw [← h2]
    exact List.length_take_le _ _
  · rw [← h2]
    refine List.Pairwise.sublist (List.take_sublist _ _) ?_
    have hp := @pairwise_sortLe ChangeRecord (reportDesc t')
      (by
        intro x y z hxy hyz
        simp only [reportDesc, decide_eq_true_eq] at hxy hyz ⊢
        exact le_trans hyz hxy)
      (by
        intro x y
        simp only [reportDesc, Bool.or_eq_true, decide_eq_true_eq]
        exact le_total (reportKey t' y) (reportKey t' x))
      ((anoms.filter (fun p => decide (p.2 = t'))).map (fun p => p.1))
    exact hp.imp (by
      intro a b hab
      simpa [reportDesc] using hab)

/-- C5 counterexample: on two records of type `PTS Change Without PA Change`
the report orders by `|pa_pct_change|` descending, placing `cRecB`
(`|pa_pct| = 5`, `|pts_pct| = 40`) before `cRecA` (`|pa_pct| = 1`,
`|pts_pct| = 50`) — not in descending `|pts_pct_change|` order as the claim
states. -/
theorem create_summary_report_pts_axis_counterexample :
    create_summary_report
        [(cRecA, "PTS Change Without PA Change"),
          (cRecB, "PTS Change Without PA Change")] =
      [("PTS Change Without PA Change", [cRecB, cRecA])] ∧
    |cRecB.pts_pct_change| < |cRecA.pts_pct_change| :=
  ⟨rfl, by decide⟩

/-- C7: when no snapshot file loads the loader returns an absent result, and
the analysis on an absent or empty combined table reports no data and stops
before computing deltas, anomalies or output files. -/
theorem load_and_main_no_data :
    ∀ files : List (Option (List SnapshotRow)),
      ((∀ f ∈ files, f = none) → load_ac_data files = none) ∧
      (load_ac_data files = none → mainAnalysis files = MainResult.noData) ∧
      (∀ df, load_ac_data files = some df → df = [] →
        mainAnalysis files = MainResult.noData) := by
  intro files
  refine ⟨?_, ?_, ?_⟩
  · intro h
    have hnil : files.filterMap id = [] := by
      refine List.filterMap_eq_nil_iff.mpr ?_
      intro a ha
      simpa using h a ha
    simp only [load_ac_data]
    rw [hnil]
    rfl
  · intro h
    simp only [mainAnalysis]
    rw [h]
  · intro df h1 h2
    subst h2
    simp only [mainAnalysis]
    rw [h1]
    rfl

theorem load_and_main_no_data_witness :
    load_ac_data [none, none] = none ∧ mainAnalysis [none, none] = MainResult.noData :=
  ⟨(load_and_main_no_data [none, none]).1 (by simp),
    (load_and_main_no_data [none, none]).2.1
      ((load_and_main_no_data [none, none]).1 (by simp))⟩

/-- C8: delta computation and anomaly classification are deterministic pure
functions of the combined snapshot table — equal inputs yield identical
delta tables and identical anomaly tables. -/
theorem analysis_deterministic :
    ∀ df1 df2 : List SnapshotRow, df1 = df2 →
      calculate_changes df1 = calculate_changes df2 ∧
        identify_anomalies (calculate_changes df1) =
          identify_anomalies (calculate_changes df2) := by
  intro df1 df2 h
  subst h
  exact ⟨rfl, rfl⟩

theorem analysis_deterministic_witness :
    calculate_changes [wRow1, wRow2] = calculate_changes [wRow1, wRow2] ∧
      identify_anomalies (calculate_changes [wRow1, wRow2]) =
        identify_anomalies (calculate_changes [wRow1, wRow2]) :=
  analysis_deterministic [wRow1, wRow2] [wRow1, wRow2] rfl

/-- C10: `projection_anomalies.csv` is written only when at least one anomaly
record exists, while the all-changes and summary-stats CSVs are written on
every completed run (whose delta table is necessarily non-empty); with an
empty anomaly table the summary's `Total Anomalies` value is `0` and no
anomalies file is produced. -/
theorem save_detailed_report_files :
    ∀ (anomalies_df : List (ChangeRecord × String)) (changes_df : List ChangeRecord),
      (anomalies_df = [] →
        save_detailed_report anomalies_df changes_df =
          [OutFile.allChangesCsv changes_df,
            OutFile.summaryStatsCsv (summary_stats anomalies_df changes_df)] ∧
        ("Total Anomalies", some (0 : ℚ)) ∈ summary_stats anomalies_df changes_df ∧
        (∀ rows, OutFile.anomaliesCsv rows ∉ save_detailed_report anomalies_df changes_df)) ∧
      (anomalies_df ≠ [] →
        OutFile.anomaliesCsv anomalies_df ∈ save_detailed_report anomalies_df changes_df) ∧
      OutFile.allChangesCsv changes_df ∈ save_detailed_report anomalies_df changes_df ∧
      OutFile.summaryStatsCsv (summary_stats anomalies_df changes_df) ∈
        save_detailed_report anomalies_df changes_df ∧
      (∀ files ch an out, mainAnalysis files = MainResult.completed ch an out →
        ch ≠ [] ∧ out = save_detailed_report an ch) := by
  intro anoms changes
  refine ⟨?_, ?_, ?_, ?_, ?_⟩
  · intro h
    subst h
    refine ⟨rfl, ?_, ?_⟩
    · simp [summary_stats]
    · intro rows hmem
      simp [save_detailed_report] at hmem
  · intro h
    simp only [save_detailed_report]
    rw [if_neg (by simpa using h)]
    exact List.mem_append.mpr (Or.inl (List.mem_singleton.mpr rfl))
  · exact List.mem_append.mpr (Or.inr (by simp))
  · exact List.mem_append.mpr (Or.inr (by simp))
  · intro files ch an out h
    simp only [mainAnalysis] at h
    rcases hl : load_ac_data files with _ | df
    · rw [hl] at h
      simp at h
    · rw [hl] at h
      split at h
      · simp at h
      · rename_i df2 heq
        split at h
        · simp at h
        · split at h
          · simp at h
          · rename_i hch
            injection h with h1 h2 h3
            subst h1
            subst h2
            subst h3
            refine ⟨?_, rfl⟩
            rw [ne_eq, ← List.isEmpty_eq_true]
            exact hch

theorem save_detailed_report_files_witness :
    ("Total Anomalies", some (0 : ℚ)) ∈ summary_stats [] [wRec12] :=
  ((save_detailed_report_files [] [wRec12]).1 rfl).2.1
